import Mathlib

/-!
Shallow embedding of the Hysteria client core (`pkg/core/client.go`) and
verification of its specification claims.

External effects (the QUIC stack, the packet-conn factory, the wire codec's
I/O, randomness) are modelled as oracle environments: each embedded function
takes a record of the outcomes the externals would produce and returns its
result together with a trace of the observable effects it performed.
Connections, streams, packet conns and channels are identified by natural
numbers.
-/

namespace HysteriaCore

/-- Errors observable by the client core. `closed` models `ErrClosed`
(client.go line 25); `temp`/`perm` model `net.Error` values whose
`Temporary()` method returns true/false; `str` models errors built with
`fmt.Errorf`; `badAddress` models a failure of `utils.SplitHostPort`. -/
inductive Err where
  | closed
  | badAddress
  | frameTooLarge
  | temp (s : String)
  | perm (s : String)
  | str (s : String)
deriving DecidableEq, Repr

/-- Classification used at client.go line 199: `err.(net.Error)` with
`nErr.Temporary()` true. Only `temp` errors are temporary. -/
def isTemporary : Err → Bool
  | .temp _ => true
  | _ => false

/-- The `Error()` string of an embedded error (used to state "the error
message contains ..." claims). -/
def errMsg : Err → String
  | .closed => "closed"
  | .badAddress => "bad address"
  | .frameTooLarge => "frame too large"
  | .temp s => s
  | .perm s => s
  | .str s => s

/-! ### Association-list maps

Go maps keyed by `uint32` are modelled as association lists with unique-key
semantics: assignment overwrites, deletion removes every binding of the key. -/

/-- Lookup in an association-list map (`m[k]` with its `ok` flag as `Option`). -/
def alookup {α : Type} (m : List (Nat × α)) (k : Nat) : Option α :=
  (m.find? (fun p => p.1 == k)).map (fun p => p.2)

/-- Map assignment `m[k] = v`. -/
def ainsert {α : Type} (m : List (Nat × α)) (k : Nat) (v : α) : List (Nat × α) :=
  (k, v) :: m.filter (fun p => p.1 != k)

/-- Map deletion `delete(m, k)`. -/
def aerase {α : Type} (m : List (Nat × α)) (k : Nat) : List (Nat × α) :=
  m.filter (fun p => p.1 != k)

theorem alookup_nil {α : Type} (k : Nat) : alookup ([] : List (Nat × α)) k = none := rfl

theorem alookup_cons {α : Type} (p : Nat × α) (t : List (Nat × α)) (k : Nat) :
    alookup (p :: t) k = if p.1 = k then some p.2 else alookup t k := by
  by_cases h : p.1 = k
  · simp [alookup, List.find?, h]
  · have hb : (p.1 == k) = false := by simp [h]
    simp [alookup, List.find?, h, hb]

theorem alookup_filter_ne {α : Type} (m : List (Nat × α)) (k k' : Nat) (h : k' ≠ k) :
    alookup (m.filter (fun p => p.1 != k)) k' = alookup m k' := by
  induction m with
  | nil => rfl
  | cons p t ih =>
    by_cases hpk : p.1 = k
    · have h1 : (p.1 != k) = false := by simp [hpk]
      have h2 : ¬(p.1 = k') := by rw [hpk]; exact fun he => h he.symm
      simp only [List.filter_cons, h1, Bool.false_eq_true, if_false]
      rw [ih, alookup_cons, if_neg h2]
    · have h1 : (p.1 != k) = true := by simpa [bne_iff_ne] using hpk
      simp only [List.filter_cons, h1, if_true]
      rw [alookup_cons, alookup_cons]
      by_cases hpk' : p.1 = k'
      · rw [if_pos hpk', if_pos hpk']
      · rw [if_neg hpk', if_neg hpk', ih]

theorem alookup_ainsert {α : Type} (m : List (Nat × α)) (k : Nat) (v : α) :
    alookup (ainsert m k v) k = some v := by
  unfold ainsert
  rw [alookup_cons, if_pos rfl]

theorem alookup_ainsert_ne {α : Type} (m : List (Nat × α)) (k k' : Nat) (v : α)
    (h : k' ≠ k) : alookup (ainsert m k v) k' = alookup m k' := by
  have hk : ¬(((k, v) : Nat × α).1 = k') := fun he => h he.symm
  unfold ainsert
  rw [alookup_cons, if_neg hk]
  exact alookup_filter_ne m k k' h

theorem alookup_aerase {α : Type} (m : List (Nat × α)) (k : Nat) :
    alookup (aerase m k) k = none := by
  unfold aerase
  induction m with
  | nil => rfl
  | cons p t ih =>
    by_cases hpk : p.1 = k
    · have h1 : (p.1 != k) = false := by simp [hpk]
      simp only [List.filter_cons, h1, Bool.false_eq_true, if_false]
      exact ih
    · have h1 : (p.1 != k) = true := by simpa [bne_iff_ne] using hpk
      simp only [List.filter_cons, h1, if_true]
      rw [alookup_cons, if_neg hpk]
      exact ih

theorem alookup_aerase_ne {α : Type} (m : List (Nat × α)) (k k' : Nat)
    (h : k' ≠ k) : alookup (aerase m k) k' = alookup m k' :=
  alookup_filter_ne m k k' h

instance exceptDecEq {α β : Type} [DecidableEq α] [DecidableEq β] :
    DecidableEq (Except α β)
  | .error x, .error y =>
    if h : x = y then .isTrue (by rw [h])
    else .isFalse (fun hc => by injection hc; contradiction)
  | .error _, .ok _ => .isFalse (fun hc => Except.noConfusion hc)
  | .ok _, .error _ => .isFalse (fun hc => Except.noConfusion hc)
  | .ok x, .ok y =>
    if h : x = y then .isTrue (by rw [h])
    else .isFalse (fun hc => by injection hc; contradiction)

/-! ### openStreamWithReconnect (client.go lines 187-212) -/

/-- Oracle environment for one call to `openStreamWithReconnect`:
the `closed` flag at entry, the identity of the current QUIC connection,
the outcome of the first `OpenStream`, of `connect()` (error, or the
identity of the fresh connection it installs), and of the retried
`OpenStream` on the fresh connection. -/
structure OswrEnv where
  closed : Bool
  conn1 : Nat
  open1 : Except Err Nat
  connectRes : Except Err Nat
  open2 : Except Err Nat
deriving DecidableEq, Repr

/-- Observable effects of `openStreamWithReconnect`: an `OpenStream`
attempt, an invocation of the user reconnect notifier
(`quicReconnectFunc`), and an invocation of `connect()`. -/
inductive OswrEvent where
  | openAttempt
  | notify
  | connectCall
deriving DecidableEq, Repr

/-- Return value of `openStreamWithReconnect`: the Go function returns
`(quic.Connection, quic.Stream, error)`. `conn = none` models a nil
connection; `stream = none` models a nil `quic.Stream` interface value,
while `stream = some u` models a non-nil `&qStream{...}` wrapper whose
underlying stream is `u` (`u = none` being a wrapper around a nil
stream). -/
structure OswrRet where
  conn : Option Nat
  stream : Option (Option Nat)
  err : Option Err
deriving DecidableEq, Repr

/-- Embedding of `Client.openStreamWithReconnect` (client.go 187-212).
Under the reconnect mutex: fail `ErrClosed` if closed; try `OpenStream`;
on success return the wrapped stream; on a temporary error return it; else
notify, `connect()`, and on success retry `OpenStream` exactly once,
returning the connection, a wrapper around whatever stream the retry
produced (nil on failure, as quic-go returns a nil stream with an error),
and the retry's error. -/
def openStreamWithReconnect (env : OswrEnv) : OswrRet × List OswrEvent :=
  if env.closed then
    (⟨none, none, some .closed⟩, [])
  else
    match env.open1 with
    | .ok s => (⟨some env.conn1, some (some s), none⟩, [.openAttempt])
    | .error e =>
      if isTemporary e then
        (⟨none, none, some e⟩, [.openAttempt])
      else
        match env.connectRes with
        | .error ce => (⟨none, none, some ce⟩, [.openAttempt, .notify, .connectCall])
        | .ok conn2 =>
          match env.open2 with
          | .ok s2 =>
            (⟨some conn2, some (some s2), none⟩,
             [.openAttempt, .notify, .connectCall, .openAttempt])
          | .error e2 =>
            (⟨some conn2, some none, some e2⟩,
             [.openAttempt, .notify, .connectCall, .openAttempt])

theorem oswr_notify_le_one (env : OswrEnv) :
    ((openStreamWithReconnect env).2.count .notify ≤ 1) ∧
    ((openStreamWithReconnect env).2.count .connectCall ≤ 1) := by
  rcases env with ⟨cl, c1, o1, cr, o2⟩
  cases cl
  · cases o1 with
    | ok s => simp [openStreamWithReconnect]
    | error e =>
      cases he : isTemporary e
      · cases cr with
        | error ce => simp [openStreamWithReconnect, he]
        | ok c2 =>
          cases o2 with
          | ok s2 => simp [openStreamWithReconnect, he, List.count_cons]
          | error e2 => simp [openStreamWithReconnect, he, List.count_cons]
      · simp [openStreamWithReconnect, he]
  · simp [openStreamWithReconnect]

/-! ### UDP session map state (client.go lines 44-46, 121, 276-301) -/

/-- A session map: server-assigned 32-bit session ID to receive-channel
identity (`map[uint32]chan *udpMessage`). -/
abbrev SMap := List (Nat × Nat)

/-- Pointwise update of the heap of session maps. -/
def hupd (f : Nat → SMap) (k : Nat) (v : SMap) : Nat → SMap :=
  fun i => if i = k then v else f i

theorem hupd_same (f : Nat → SMap) (k : Nat) (v : SMap) : hupd f k v k = v := by
  simp [hupd]

theorem hupd_ne (f : Nat → SMap) (k k' : Nat) (v : SMap) (h : k' ≠ k) :
    hupd f k v k' = f k' := by
  simp [hupd, h]

/-- The client's UDP-session-map state. Because reconnecting reassigns
`c.udpSessionMap` to a fresh map while old closures keep references to the
old map, maps are modelled as heap objects: `heap` gives the contents of
every map identity, `cur` is the identity currently stored in
`c.udpSessionMap`, and `nextFresh` is the next unused map identity (a
fresh `make(map...)` allocation). -/
structure UdpClientState where
  heap : Nat → SMap
  cur : Nat
  nextFresh : Nat

/-- A UDP handle as built at client.go lines 286-299: the captured map
reference (`sessionMap`), the captured session ID (`sr.UDPSessionID`) and
the receive channel (`MsgCh`). -/
structure UdpHandle where
  mapId : Nat
  sid : Nat
  msgCh : Nat
deriving DecidableEq, Repr

/-- The session-map effect of a successful `connect()` (client.go line 121):
`c.udpSessionMap = make(map[uint32]chan *udpMessage)` — the current map is
replaced by a fresh empty one; the old map object is untouched. -/
def connectNewSessionMap (s : UdpClientState) : UdpClientState :=
  ⟨hupd s.heap s.nextFresh [], s.nextFresh, s.nextFresh + 1⟩

/-- Embedding of the close hook installed by `DialUDP`
(client.go lines 289-296): under the session mutex, if the captured map
still has an entry for the captured session ID, close that channel and
delete the entry; otherwise do nothing. Returns the new state and the
list of channels closed by the invocation. -/
def CloseFunc (s : UdpClientState) (h : UdpHandle) : UdpClientState × List Nat :=
  match alookup (s.heap h.mapId) h.sid with
  | some ch =>
    ({ s with heap := hupd s.heap h.mapId (aerase (s.heap h.mapId) h.sid) }, [ch])
  | none => (s, [])

/-- Embedding of `hyUDPConn.Hold` (client.go lines 366-376) at the point
its read loop observes an error: it invokes `Close`, whose session-map
effect is `CloseFunc`. -/
def Hold (s : UdpClientState) (h : UdpHandle) : UdpClientState × List Nat :=
  CloseFunc s h

/-! ### Stream dialers (client.go lines 214-302) -/

/-- The packed `serverResponse` frame: `{ ok bool, udpSessionID u32,
message string }`. -/
structure ServerResponse where
  ok : Bool
  udpSessionID : Nat
  message : String
deriving DecidableEq, Repr

/-- Oracle environment for `DialTCP`: the outcome of
`utils.SplitHostPort(addr)`, the environment of the inner
`openStreamWithReconnect` call, and the outcomes of packing the request
and unpacking the response on the stream. -/
structure DialTcpEnv where
  parse : Except Err (String × Nat)
  oswr : OswrEnv
  packReq : Option Err
  readResp : Except Err ServerResponse
deriving DecidableEq, Repr

/-- The `net.Conn` returned by `DialTCP`: the wrapped stream and the QUIC
connection whose addresses serve as pseudo local/remote addresses. -/
structure hyTCPConn where
  Orig : Option (Option Nat)
  AddrConn : Option Nat
deriving DecidableEq, Repr

/-- Embedding of `Client.DialTCP` (client.go lines 214-249). The returned
trace is that of the inner `openStreamWithReconnect` call (empty when the
address fails to parse, since the parse happens first). -/
def DialTCP (env : DialTcpEnv) : Except Err hyTCPConn × List OswrEvent :=
  match env.parse with
  | .error e => (.error e, [])
  | .ok _hp =>
    let r := openStreamWithReconnect env.oswr
    match r.1.err with
    | some e => (.error e, r.2)
    | none =>
      match env.packReq with
      | some e => (.error e, r.2)
      | none =>
        match env.readResp with
        | .error e => (.error e, r.2)
        | .ok sr =>
          if sr.ok then (.ok ⟨r.1.stream, r.1.conn⟩, r.2)
          else (.error (.str ("connection rejected: " ++ sr.message)), r.2)

/-- Oracle environment for `DialUDP`: the inner
`openStreamWithReconnect` environment, the request/response outcomes, and
the identity of the freshly allocated receive channel
(`make(chan *udpMessage, 1024)`). -/
structure DialUdpEnv where
  oswr : OswrEnv
  packReq : Option Err
  readResp : Except Err ServerResponse
  newCh : Nat
deriving DecidableEq, Repr

/-- Embedding of `Client.DialUDP` (client.go lines 251-302). On success it
captures the current session map (`sessionMap := c.udpSessionMap`),
installs the new channel at the server-assigned session ID in that map,
and returns a handle recording the captured map identity, session ID and
channel; its close hook is `CloseFunc` over those captured values. -/
def DialUDP (env : DialUdpEnv) (s : UdpClientState) :
    Except Err UdpHandle × UdpClientState × List OswrEvent :=
  let r := openStreamWithReconnect env.oswr
  match r.1.err with
  | some e => (.error e, s, r.2)
  | none =>
    match env.packReq with
    | some e => (.error e, s, r.2)
    | none =>
      match env.readResp with
      | .error e => (.error e, s, r.2)
      | .ok sr =>
        if sr.ok then
          let m2 := ainsert (s.heap s.cur) sr.udpSessionID env.newCh
          let s2 : UdpClientState := { s with heap := hupd s.heap s.cur m2 }
          (.ok ⟨s.cur, sr.udpSessionID, env.newCh⟩, s2, r.2)
        else (.error (.str ("connection rejected: " ++ sr.message)), s, r.2)

/-! ### The closed flag (client.go lines 42, 190, 309) -/

/-- The operations of the client that run under the reconnect mutex or
touch client state. -/
inductive ClientOp where
  | close
  | connectOp
  | openStreamOp
  | dialTCPOp
  | dialUDPOp
deriving DecidableEq, Repr

/-- Effect of each operation on the `closed` flag, read off the source:
the only write to `c.closed` in client.go is `c.closed = true` in
`Client.Close` (line 309); no operation ever resets it. -/
def closedAfter (op : ClientOp) (b : Bool) : Bool :=
  match op with
  | .close => true
  | _ => b

/-! ### Helper lemmas -/

theorem closedAfter_true (op : ClientOp) : closedAfter op true = true := by
  cases op <;> rfl

theorem dialTCP_trace (env : DialTcpEnv) :
    (DialTCP env).2 = [] ∨ (DialTCP env).2 = (openStreamWithReconnect env.oswr).2 := by
  unfold DialTCP
  cases env.parse with
  | error e => exact Or.inl rfl
  | ok hp =>
    right
    cases hr : (openStreamWithReconnect env.oswr).1.err with
    | some e => simp [hr]
    | none =>
      cases env.packReq with
      | some e => simp [hr]
      | none =>
        cases env.readResp with
        | error e => simp [hr]
        | ok sr => by_cases hok : sr.ok <;> simp [hr, hok]

theorem dialUDP_trace (env : DialUdpEnv) (s : UdpClientState) :
    (DialUDP env s).2.2 = (openStreamWithReconnect env.oswr).2 := by
  unfold DialUDP
  cases hr : (openStreamWithReconnect env.oswr).1.err with
  | some e => simp [hr]
  | none =>
    cases env.packReq with
    | some e => simp [hr]
    | none =>
      cases env.readResp with
      | error e => simp [hr]
      | ok sr => by_cases hok : sr.ok <;> simp [hr, hok]

/-! ### Claim theorems -/

/-- C9: UDP handle close idempotence. An invocation of the close hook
closes at most one channel; a second invocation (whether from a repeated
user `Close` or from the `Hold` liveness task observing EOF) finds the
captured map without the entry, leaves the state unchanged and closes no
channel — so the receive channel is never double-closed. -/
theorem udp_close_idempotent (s : UdpClientState) (h : UdpHandle) :
    (CloseFunc s h).2.length ≤ 1 ∧
    CloseFunc (CloseFunc s h).1 h = ((CloseFunc s h).1, []) ∧
    Hold (CloseFunc s h).1 h = ((CloseFunc s h).1, []) := by
  cases hl : alookup (s.heap h.mapId) h.sid with
  | none => simp [CloseFunc, Hold, hl]
  | some ch =>
    have h2 : alookup ((hupd s.heap h.mapId (aerase (s.heap h.mapId) h.sid)) h.mapId)
        h.sid = none := by
      rw [hupd_same]; exact alookup_aerase _ _
    simp [CloseFunc, Hold, hl, h2]

/-- C4: temporary errors do not reconnect. If the first `OpenStream`
fails with an error classified as temporary, `openStreamWithReconnect`
returns that error (with nil connection and stream) after the single open
attempt, invoking neither the reconnect notifier nor `connect()`. -/
theorem temporary_error_no_reconnect (env : OswrEnv) (e : Err)
    (hc : env.closed = false) (h1 : env.open1 = .error e)
    (ht : isTemporary e = true) :
    (openStreamWithReconnect env).1 = ⟨none, none, some e⟩ ∧
    (openStreamWithReconnect env).2 = [.openAttempt] ∧
    (openStreamWithReconnect env).2.count .notify = 0 ∧
    (openStreamWithReconnect env).2.count .connectCall = 0 := by
  rcases env with ⟨cl, c1, o1, cr, o2⟩
  simp only at hc h1
  subst hc h1
  simp [openStreamWithReconnect, ht]

theorem temporary_error_no_reconnect_witness :
    (openStreamWithReconnect ⟨false, 0, .error (.temp "t"), .ok 1, .ok 2⟩).1
        = ⟨none, none, some (.temp "t")⟩ ∧
    (openStreamWithReconnect ⟨false, 0, .error (.temp "t"), .ok 1, .ok 2⟩).2
        = [.openAttempt] ∧
    (openStreamWithReconnect ⟨false, 0, .error (.temp "t"), .ok 1, .ok 2⟩).2.count
        .notify = 0 ∧
    (openStreamWithReconnect ⟨false, 0, .error (.temp "t"), .ok 1, .ok 2⟩).2.count
        .connectCall = 0 :=
  temporary_error_no_reconnect ⟨false, 0, .error (.temp "t"), .ok 1, .ok 2⟩
    (.temp "t") rfl rfl rfl

/-- Boolean recognizer for the one path of `openStreamWithReconnect` in
which the post-reconnect `OpenStream` retry fails: not closed, the first
open failed permanently, `connect()` succeeded, and the retried open
failed. -/
def retryFailurePath (env : OswrEnv) : Bool :=
  !env.closed &&
  (match env.open1 with | .error e => !(isTemporary e) | .ok _ => false) &&
  (match env.connectRes with | .ok _ => true | .error _ => false) &&
  (match env.open2 with | .error _ => true | .ok _ => false)

/-- C10: return shape of `openStreamWithReconnect`. On the
retry-failure path it returns a non-nil connection and a non-nil stream
wrapper around a nil underlying stream, together with a non-nil error;
on every other path that produces an error, both the connection and the
stream are nil. -/
theorem retry_failure_return_shape (env : OswrEnv) :
    (retryFailurePath env = true →
      (openStreamWithReconnect env).1.conn.isSome = true ∧
      (openStreamWithReconnect env).1.stream = some none ∧
      (openStreamWithReconnect env).1.err.isSome = true) ∧
    (retryFailurePath env = false →
      (openStreamWithReconnect env).1.err.isSome = true →
      (openStreamWithReconnect env).1.conn = none ∧
      (openStreamWithReconnect env).1.stream = none) := by
  rcases env with ⟨cl, c1, o1, cr, o2⟩
  cases cl
  · cases o1 with
    | ok s => simp [openStreamWithReconnect, retryFailurePath]
    | error e =>
      cases he : isTemporary e
      · cases cr with
        | error ce => simp [openStreamWithReconnect, retryFailurePath, he]
        | ok c2 =>
          cases o2 with
          | ok s2 => simp [openStreamWithReconnect, retryFailurePath, he]
          | error e2 => simp [openStreamWithReconnect, retryFailurePath, he]
      · simp [openStreamWithReconnect, retryFailurePath, he]
  · simp [openStreamWithReconnect, retryFailurePath]

theorem retry_failure_return_shape_witness :
    ((openStreamWithReconnect ⟨false, 0, .error (.perm "p"), .ok 3, .error (.perm "q")⟩).1.conn.isSome = true ∧
     (openStreamWithReconnect ⟨false, 0, .error (.perm "p"), .ok 3, .error (.perm "q")⟩).1.stream = some none ∧
     (openStreamWithReconnect ⟨false, 0, .error (.perm "p"), .ok 3, .error (.perm "q")⟩).1.err.isSome = true) ∧
    ((openStreamWithReconnect ⟨true, 0, .ok 1, .ok 2, .ok 3⟩).1.conn = none ∧
     (openStreamWithReconnect ⟨true, 0, .ok 1, .ok 2, .ok 3⟩).1.stream = none) :=
  ⟨(retry_failure_return_shape ⟨false, 0, .error (.perm "p"), .ok 3, .error (.perm "q")⟩).1 rfl,
   (retry_failure_return_shape ⟨true, 0, .ok 1, .ok 2, .ok 3⟩).2 rfl rfl⟩

/-- C2: at-most-once reconnect per dial. A single `DialTCP` or `DialUDP`
call produces at most one reconnect-notifier invocation and at most one
`connect()` invocation; and when the first open fails permanently and
`connect()` succeeds, exactly two `OpenStream` attempts occur (the retry
happens exactly once) and the retry's outcome is returned as is. -/
theorem at_most_once_reconnect :
    (∀ env : DialTcpEnv,
      (DialTCP env).2.count .notify ≤ 1 ∧ (DialTCP env).2.count .connectCall ≤ 1) ∧
    (∀ (env : DialUdpEnv) (s : UdpClientState),
      (DialUDP env s).2.2.count .notify ≤ 1 ∧
      (DialUDP env s).2.2.count .connectCall ≤ 1) ∧
    (∀ (env : OswrEnv) (e : Err) (c2 : Nat), env.closed = false →
      env.open1 = .error e → isTemporary e = false → env.connectRes = .ok c2 →
      (openStreamWithReconnect env).2.count .openAttempt = 2 ∧
      (openStreamWithReconnect env).2.count .notify = 1 ∧
      (openStreamWithReconnect env).2.count .connectCall = 1 ∧
      (openStreamWithReconnect env).1 = (match env.open2 with
        | .ok s2 => ⟨some c2, some (some s2), none⟩
        | .error e2 => ⟨some c2, some none, some e2⟩)) := by
  refine ⟨fun env => ?_, fun env s => ?_, fun env e c2 hc h1 ht hcr => ?_⟩
  · have h := oswr_notify_le_one env.oswr
    rcases dialTCP_trace env with ht | ht <;> rw [ht]
    · simp
    · exact h
  · have h := oswr_notify_le_one env.oswr
    rw [dialUDP_trace env s]
    exact h
  · rcases env with ⟨cl, c1, o1, cr, o2⟩
    simp only at hc h1 hcr
    subst hc h1 hcr
    cases o2 with
    | ok s2 => simp [openStreamWithReconnect, ht, List.count_cons]
    | error e2 => simp [openStreamWithReconnect, ht, List.count_cons]

theorem at_most_once_reconnect_witness :
    (openStreamWithReconnect ⟨false, 0, .error (.perm "p"), .ok 8, .ok 9⟩).2.count
        .openAttempt = 2 ∧
    (openStreamWithReconnect ⟨false, 0, .error (.perm "p"), .ok 8, .ok 9⟩).2.count
        .notify = 1 ∧
    (openStreamWithReconnect ⟨false, 0, .error (.perm "p"), .ok 8, .ok 9⟩).2.count
        .connectCall = 1 ∧
    (openStreamWithReconnect ⟨false, 0, .error (.perm "p"), .ok 8, .ok 9⟩).1
        = ⟨some 8, some (some 9), none⟩ :=
  at_most_once_reconnect.2.2 ⟨false, 0, .error (.perm "p"), .ok 8, .ok 9⟩
    (.perm "p") 8 rfl rfl rfl rfl

/-- C3 (amended): once `Close` has returned, the `closed` flag is true
and stays true under every subsequent operation; every subsequent
`DialUDP` fails with `ErrClosed`, and every subsequent `DialTCP` whose
address parses fails with `ErrClosed`, in both cases with an empty
effect trace (no open attempt, no notifier, no `connect()`). A `DialTCP`
whose address does not parse fails with the parse error instead, since
`utils.SplitHostPort` runs before the closed check. -/
theorem closed_monotonic_dials_fail :
    (∀ ops : List ClientOp, ops.foldl (fun b op => closedAfter op b) true = true) ∧
    (∀ (env : DialTcpEnv) (hp : String × Nat), env.parse = .ok hp →
      env.oswr.closed = true → DialTCP env = (.error .closed, [])) ∧
    (∀ (env : DialUdpEnv) (s : UdpClientState), env.oswr.closed = true →
      DialUDP env s = (.error .closed, s, [])) := by
  refine ⟨fun ops => ?_, fun env hp hparse hcl => ?_, fun env s hcl => ?_⟩
  · induction ops with
    | nil => rfl
    | cons op t ih => rw [List.foldl_cons, closedAfter_true]; exact ih
  · have hos : openStreamWithReconnect env.oswr = (⟨none, none, some .closed⟩, []) := by
      simp [openStreamWithReconnect, hcl]
    simp [DialTCP, hparse, hos]
  · have hos : openStreamWithReconnect env.oswr = (⟨none, none, some .closed⟩, []) := by
      simp [openStreamWithReconnect, hcl]
    simp [DialUDP, hos]

theorem closed_monotonic_dials_fail_witness :
    DialTCP ⟨.ok ("h", 80), ⟨true, 0, .ok 1, .ok 2, .ok 3⟩, none,
        .ok ⟨true, 0, ""⟩⟩ = (.error .closed, []) ∧
    DialUDP ⟨⟨true, 0, .ok 1, .ok 2, .ok 3⟩, none, .ok ⟨true, 4, ""⟩, 5⟩
        ⟨fun _ => [], 0, 1⟩ = (.error .closed, ⟨fun _ => [], 0, 1⟩, []) :=
  ⟨closed_monotonic_dials_fail.2.1
      ⟨.ok ("h", 80), ⟨true, 0, .ok 1, .ok 2, .ok 3⟩, none, .ok ⟨true, 0, ""⟩⟩
      ("h", 80) rfl rfl,
   closed_monotonic_dials_fail.2.2
      ⟨⟨true, 0, .ok 1, .ok 2, .ok 3⟩, none, .ok ⟨true, 4, ""⟩, 5⟩
      ⟨fun _ => [], 0, 1⟩ rfl⟩

/-- Environment of a `DialTCP` call made on a closed client with an
address that `utils.SplitHostPort` rejects (the spec's `BadAddress`
case, §4.F: "fail BadAddress on malformed input"). -/
def closedBadAddrEnv : DialTcpEnv :=
  ⟨.error .badAddress, ⟨true, 0, .ok 0, .ok 0, .ok 0⟩, none, .ok ⟨true, 0, ""⟩⟩

/-- C3 counterexample: on a closed client, a `DialTCP` whose address
fails to parse returns the address-parse error, not `ErrClosed` — the
address is split (client.go line 215) before the closed flag is
consulted (line 190). So not every post-`Close` dial fails with
`Closed`. -/
theorem closed_dial_not_always_closed_error :
    closedBadAddrEnv.oswr.closed = true ∧
    (DialTCP closedBadAddrEnv).1 = .error .badAddress ∧
    (DialTCP closedBadAddrEnv).1 ≠ .error .closed := by
  refine ⟨rfl, rfl, ?_⟩
  intro h
  simp [DialTCP, closedBadAddrEnv] at h

/-- C1: captured-map close discipline. A successful `DialUDP` returns a
handle whose captured map identity is the session map current at dial
time (`s.cur`), with the fresh channel installed there. If `connect()`
then replaces the session map with a fresh one, closing the
pre-reconnect handle closes exactly its own channel, removes the entry
from the dial-time map, and leaves the post-reconnect current session
map (and the current-map pointer) unchanged. The hypothesis
`s.cur < s.nextFresh` states that the current map identity is an
already-allocated one, which every reachable state satisfies. -/
theorem captured_map_close (env : DialUdpEnv) (s : UdpClientState)
    (hwf : s.cur < s.nextFresh)
    (hok : (openStreamWithReconnect env.oswr).1.err = none)
    (hpk : env.packReq = none) (sr : ServerResponse)
    (hrr : env.readResp = .ok sr) (hsrok : sr.ok = true) :
    ∃ s1 : UdpClientState,
      DialUDP env s = (.ok ⟨s.cur, sr.udpSessionID, env.newCh⟩, s1,
        (openStreamWithReconnect env.oswr).2) ∧
      ∀ s2 res, s2 = connectNewSessionMap s1 →
        res = CloseFunc s2 ⟨s.cur, sr.udpSessionID, env.newCh⟩ →
        res.2 = [env.newCh] ∧
        alookup (res.1.heap s.cur) sr.udpSessionID = none ∧
        res.1.heap s2.cur = s2.heap s2.cur ∧
        res.1.cur = s2.cur := by
  have hne : s.cur ≠ s.nextFresh := Nat.ne_of_lt hwf
  refine ⟨⟨hupd s.heap s.cur (ainsert (s.heap s.cur) sr.udpSessionID env.newCh),
    s.cur, s.nextFresh⟩, ?_, ?_⟩
  · simp [DialUDP, hok, hpk, hrr, hsrok]
  · intro s2 res hs2 hres
    have hs2cur : s2.cur = s.nextFresh := by rw [hs2]; rfl
    have hs2next : s2.heap s.cur = ainsert (s.heap s.cur) sr.udpSessionID env.newCh := by
      rw [hs2]
      show hupd (hupd s.heap s.cur _) s.nextFresh [] s.cur = _
      rw [hupd_ne _ _ _ _ hne, hupd_same]
    have hlook : alookup (s2.heap s.cur) sr.udpSessionID = some env.newCh := by
      rw [hs2next]; exact alookup_ainsert _ _ _
    have hclose : res = (⟨hupd s2.heap s.cur (aerase (s2.heap s.cur) sr.udpSessionID),
        s2.cur, s2.nextFresh⟩, [env.newCh]) := by
      rw [hres]
      show CloseFunc s2 ⟨s.cur, sr.udpSessionID, env.newCh⟩ = _
      unfold CloseFunc
      rw [hlook]
    refine ⟨by rw [hclose], ?_, ?_, by rw [hclose]⟩
    · rw [hclose]
      show alookup (hupd s2.heap s.cur _ s.cur) sr.udpSessionID = none
      rw [hupd_same]
      exact alookup_aerase _ _
    · rw [hclose]
      show hupd s2.heap s.cur _ s2.cur = s2.heap s2.cur
      rw [hupd_ne]
      rw [hs2cur]
      exact fun hc => hne hc.symm

theorem captured_map_close_witness :
    ∃ s1 : UdpClientState,
      DialUDP ⟨⟨false, 5, .ok 7, .ok 0, .ok 0⟩, none, .ok ⟨true, 9, "ok"⟩, 42⟩
          ⟨fun _ => [], 0, 1⟩
        = (.ok ⟨0, 9, 42⟩, s1,
           (openStreamWithReconnect ⟨false, 5, .ok 7, .ok 0, .ok 0⟩).2) ∧
      ∀ s2 res, s2 = connectNewSessionMap s1 →
        res = CloseFunc s2 ⟨0, 9, 42⟩ →
        res.2 = [42] ∧
        alookup (res.1.heap 0) 9 = none ∧
        res.1.heap s2.cur = s2.heap s2.cur ∧
        res.1.cur = s2.cur :=
  captured_map_close ⟨⟨false, 5, .ok 7, .ok 0, .ok 0⟩, none, .ok ⟨true, 9, "ok"⟩, 42⟩
    ⟨fun _ => [], 0, 1⟩ (by decide) rfl rfl ⟨true, 9, "ok"⟩ rfl rfl

/-! ### Control handshake (client.go lines 128-156) and connect (lines 81-126) -/

/-- The `maxRate` frame field pair: `{ sendBPS u64, recvBPS u64 }`. -/
structure MaxRate where
  sendBPS : Nat
  recvBPS : Nat
deriving DecidableEq, Repr

/-- The packed `serverHello` frame: `{ ok bool, rate maxRate, message string }`. -/
structure serverHello where
  ok : Bool
  rate : MaxRate
  message : String
deriving DecidableEq, Repr

/-- The client configuration fields consumed by the handshake: the
client's advertised send/recv rates and the opaque auth blob. -/
structure ClientCfg where
  sendBPS : Nat
  recvBPS : Nat
  auth : List Nat
deriving DecidableEq, Repr

/-- Oracle environment for `handleControlStream`: outcome of writing the
protocol-version byte, of packing the client hello onto the stream, and
of unpacking the server hello from it. -/
structure HcsEnv where
  writeVersion : Option Err
  writeHello : Option Err
  readHello : Except Err serverHello
deriving DecidableEq, Repr

/-- Observable effects of the handshake: the successful write of the
version byte, the successful write of the packed client hello (carrying
the advertised rates and auth blob), and the installation of a
congestion controller (`qc.SetCongestionControl(congestion.NewBrutalSender(bps))`)
with its rate parameter. -/
inductive HcsEvent where
  | wroteVersion
  | wroteHello (sendBPS : Nat) (recvBPS : Nat) (auth : List Nat)
  | setCongestion (bps : Nat)
deriving DecidableEq, Repr

/-- Embedding of `Client.handleControlStream` (client.go 128-156): write
the version byte, pack the client hello, unpack the server hello — each
I/O error returning `(false, "", err)` — then, iff the server hello's
`OK` is set, install a congestion controller parameterized by the server
hello's `Rate.RecvBPS`; return `(sh.OK, sh.Message, nil)`. -/
def handleControlStream (cfg : ClientCfg) (env : HcsEnv) :
    (Bool × String × Option Err) × List HcsEvent :=
  match env.writeVersion with
  | some e => ((false, "", some e), [])
  | none =>
    match env.writeHello with
    | some e => ((false, "", some e), [.wroteVersion])
    | none =>
      match env.readHello with
      | .error e => ((false, "", some e),
          [.wroteVersion, .wroteHello cfg.sendBPS cfg.recvBPS cfg.auth])
      | .ok sh =>
        if sh.ok then
          ((true, sh.message, none),
           [.wroteVersion, .wroteHello cfg.sendBPS cfg.recvBPS cfg.auth,
            .setCongestion sh.rate.recvBPS])
        else
          ((false, sh.message, none),
           [.wroteVersion, .wroteHello cfg.sendBPS cfg.recvBPS cfg.auth])

/-- Oracle environment for `connect()`: outcomes of the packet-conn
factory (yielding the packet-conn identity), of `quic.Dial` (yielding
the connection identity), of `OpenStreamSync` for the control stream,
and the handshake's oracle. -/
structure ConnectEnv where
  pktRes : Except Err Nat
  dialRes : Except Err Nat
  openRes : Except Err Nat
  hcs : HcsEnv
deriving DecidableEq, Repr

/-- Observable effects of `connect()`: closing the previous QUIC
connection (`CloseWithError(0, "")`) and previous packet conn, closing
the new packet conn, sending the `qErrorProtocol` / `qErrorAuth`
application-close on the new connection, replacing the UDP session map,
and spawning the datagram pump on the new connection. The close codes
`qErrorProtocol`/`qErrorAuth` are constants of this package outside
src/; per the spec they are distinct codes, modelled as distinct event
constructors. -/
inductive ConnEvent where
  | oldQuicClose
  | oldPktClose
  | pktClose (id : Nat)
  | protoClose (conn : Nat)
  | authClose (conn : Nat)
  | mapReset
  | pumpSpawn (conn : Nat)
deriving DecidableEq, Repr

/-- The previous connection state cleared at the top of `connect()`. -/
structure ConnPrev where
  oldQuic : Option Nat
  oldPkt : Option Nat
deriving DecidableEq, Repr

/-- Embedding of `Client.connect` (client.go 81-126). Returns the error
(`none` on success), the effect trace, and on success the new
`(pktConn, quicConn)` pair installed as current. -/
def connect (cfg : ClientCfg) (prev : ConnPrev) (env : ConnectEnv) :
    Option Err × List ConnEvent × Option (Nat × Nat) :=
  let pre := (match prev.oldQuic with | some _ => [ConnEvent.oldQuicClose] | none => [])
    ++ (match prev.oldPkt with | some _ => [ConnEvent.oldPktClose] | none => [])
  match env.pktRes with
  | .error e => (some e, pre, none)
  | .ok pkt =>
    match env.dialRes with
    | .error e => (some e, pre ++ [.pktClose pkt], none)
    | .ok conn =>
      match env.openRes with
      | .error e => (some e, pre ++ [.protoClose conn, .pktClose pkt], none)
      | .ok _stream =>
        let h := handleControlStream cfg env.hcs
        match h.1.2.2 with
        | some e => (some e, pre ++ [.protoClose conn, .pktClose pkt], none)
        | none =>
          if h.1.1 then
            (none, pre ++ [.mapReset, .pumpSpawn conn], some (pkt, conn))
          else
            (some (.str ("auth error: " ++ h.1.2.1)),
             pre ++ [.authClose conn, .pktClose pkt], none)

/-- C6: handshake success installs the negotiated rate. The handshake
installs a congestion controller precisely when the version byte and
client hello were written, the server hello was read, and its `ok` field
is true; in that case the controller's parameter is the server hello's
`recvBPS`, the effect trace is exactly version-write, hello-write,
controller installation, and the result is success with the server's
message and no error. When `ok` is false the result is `(false,
sh.message, nil)` and no controller is installed. -/
theorem handshake_installs_rate (cfg : ClientCfg) (env : HcsEnv) :
    ((∃ bps, HcsEvent.setCongestion bps ∈ (handleControlStream cfg env).2) ↔
      (env.writeVersion = none ∧ env.writeHello = none ∧
       ∃ sh, env.readHello = .ok sh ∧ sh.ok = true)) ∧
    (∀ sh, env.writeVersion = none → env.writeHello = none →
      env.readHello = .ok sh →
      (sh.ok = true →
        handleControlStream cfg env = ((true, sh.message, none),
          [.wroteVersion, .wroteHello cfg.sendBPS cfg.recvBPS cfg.auth,
           .setCongestion sh.rate.recvBPS])) ∧
      (sh.ok = false →
        handleControlStream cfg env = ((false, sh.message, none),
          [.wroteVersion, .wroteHello cfg.sendBPS cfg.recvBPS cfg.auth]))) := by
  rcases env with ⟨wv, wh, rh⟩
  constructor
  · cases wv with
    | some e => simp [handleControlStream]
    | none =>
      cases wh with
      | some e => simp [handleControlStream]
      | none =>
        cases rh with
        | error e => simp [handleControlStream]
        | ok sh =>
          cases hok : sh.ok with
          | true => simp [handleControlStream, hok]
          | false => simp [handleControlStream, hok]
  · intro sh hwv hwh hrh
    simp only at hwv hwh hrh
    subst hwv hwh hrh
    constructor
    · intro hok; simp [handleControlStream, hok]
    · intro hok; simp [handleControlStream, hok]

theorem handshake_installs_rate_witness :
    (handleControlStream ⟨10, 20, [7]⟩ ⟨none, none, .ok ⟨true, ⟨33, 44⟩, "welcome"⟩⟩
      = ((true, "welcome", none),
         [.wroteVersion, .wroteHello 10 20 [7], .setCongestion 44])) ∧
    (handleControlStream ⟨10, 20, [7]⟩ ⟨none, none, .ok ⟨false, ⟨33, 44⟩, "denied"⟩⟩
      = ((false, "denied", none), [.wroteVersion, .wroteHello 10 20 [7]])) :=
  ⟨((handshake_installs_rate ⟨10, 20, [7]⟩
      ⟨none, none, .ok ⟨true, ⟨33, 44⟩, "welcome"⟩⟩).2
      ⟨true, ⟨33, 44⟩, "welcome"⟩ rfl rfl rfl).1 rfl,
   ((handshake_installs_rate ⟨10, 20, [7]⟩
      ⟨none, none, .ok ⟨false, ⟨33, 44⟩, "denied"⟩⟩).2
      ⟨false, ⟨33, 44⟩, "denied"⟩ rfl rfl rfl).2 rfl⟩

/-- C7: failure cleanup in `connect()`. Once the packet-conn factory has
produced a packet conn, every failing path closes it; a control-stream
open failure or a handshake I/O error additionally sends the
protocol-error application-close on the new QUIC connection; an `ok =
false` server hello sends the auth-error application-close instead, and
`connect` returns an error whose message contains the server hello's
message. -/
theorem connect_failure_cleanup (cfg : ClientCfg) (prev : ConnPrev)
    (env : ConnectEnv) (pkt : Nat) (hpkt : env.pktRes = .ok pkt) :
    ((connect cfg prev env).1.isSome = true →
      ConnEvent.pktClose pkt ∈ (connect cfg prev env).2.1) ∧
    (∀ conn e, env.dialRes = .ok conn → env.openRes = .error e →
      (connect cfg prev env).1 = some e ∧
      ConnEvent.protoClose conn ∈ (connect cfg prev env).2.1) ∧
    (∀ conn st e, env.dialRes = .ok conn → env.openRes = .ok st →
      (handleControlStream cfg env.hcs).1.2.2 = some e →
      (connect cfg prev env).1 = some e ∧
      ConnEvent.protoClose conn ∈ (connect cfg prev env).2.1) ∧
    (∀ conn st sh, env.dialRes = .ok conn → env.openRes = .ok st →
      env.hcs.writeVersion = none → env.hcs.writeHello = none →
      env.hcs.readHello = .ok sh → sh.ok = false →
      ConnEvent.authClose conn ∈ (connect cfg prev env).2.1 ∧
      (connect cfg prev env).1 = some (.str ("auth error: " ++ sh.message)) ∧
      ∃ a b, errMsg (.str ("auth error: " ++ sh.message)) = a ++ sh.message ++ b) := by
  refine ⟨?_, ?_, ?_, ?_⟩
  · intro hsome
    rcases hd : env.dialRes with e | conn
    · simp [connect, hpkt, hd]
    · rcases ho : env.openRes with e | st
      · simp [connect, hpkt, hd, ho]
      · rcases hh : (handleControlStream cfg env.hcs).1.2.2 with _ | e
        · rcases hb : (handleControlStream cfg env.hcs).1.1 with _ | _
          · simp [connect, hpkt, hd, ho, hh, hb]
          · exfalso
            simp [connect, hpkt, hd, ho, hh, hb] at hsome
        · simp [connect, hpkt, hd, ho, hh]
  · intro conn e hd ho
    simp [connect, hpkt, hd, ho]
  · intro conn st e hd ho hh
    simp [connect, hpkt, hd, ho, hh]
  · intro conn st sh hd ho hwv hwh hrh hok
    have hh : handleControlStream cfg env.hcs = ((false, sh.message, none),
        [.wroteVersion, .wroteHello cfg.sendBPS cfg.recvBPS cfg.auth]) := by
      rcases env with ⟨_, _, _, hcs⟩
      rcases hcs with ⟨wv, wh, rh⟩
      simp only at hwv hwh hrh
      subst hwv hwh hrh
      simp [handleControlStream, hok]
    refine ⟨?_, ?_, "auth error: ", "", by simp [errMsg]⟩
    · simp [connect, hpkt, hd, ho, hh]
    · simp [connect, hpkt, hd, ho, hh]

theorem connect_failure_cleanup_witness :
    (ConnEvent.authClose 3 ∈
      (connect ⟨1, 2, []⟩ ⟨some 8, some 9⟩
        ⟨.ok 5, .ok 3, .ok 4, ⟨none, none, .ok ⟨false, ⟨0, 0⟩, "bad auth"⟩⟩⟩).2.1) ∧
    ((connect ⟨1, 2, []⟩ ⟨some 8, some 9⟩
        ⟨.ok 5, .ok 3, .ok 4, ⟨none, none, .ok ⟨false, ⟨0, 0⟩, "bad auth"⟩⟩⟩).1
      = some (.str ("auth error: " ++ "bad auth"))) ∧
    ∃ a b, errMsg (.str ("auth error: " ++ "bad auth")) = a ++ "bad auth" ++ b :=
  connect_failure_cleanup ⟨1, 2, []⟩ ⟨some 8, some 9⟩
    ⟨.ok 5, .ok 3, .ok 4, ⟨none, none, .ok ⟨false, ⟨0, 0⟩, "bad auth"⟩⟩⟩ 5 rfl
    |>.2.2.2 3 4 ⟨false, ⟨0, 0⟩, "bad auth"⟩ rfl rfl rfl rfl rfl rfl

/-! ### UDP write path (client.go lines 387-424) -/

/-- The UDP message frame, semantic fields per §3: sessionID u32, host
string, port u16, msgID u16, fragID u8, fragCount u8, length-prefixed
data. -/
structure udpMessage where
  sessionID : Nat
  host : String
  port : Nat
  msgID : Nat
  fragID : Nat
  fragCount : Nat
  data : List Nat
deriving DecidableEq, Repr

/-- Modelled from the spec: the fixed per-fragment header overhead of
the wire frame of §3/§4.A (the codec lives in this package outside
src/): sessionID (4) + host length byte (1) + host bytes + port (2) +
msgID (2) + fragID (1) + fragCount (1) + data length (2). -/
def headerOverhead (m : udpMessage) : Nat :=
  13 + m.host.utf8ByteSize

/-- Modelled from the spec: the fragmenter `fragUDPMessage(m, maxSize)`
of §4.C (defined in this package outside src/). The per-fragment payload
budget is `maxSize` minus the per-fragment header overhead; when the
budget is zero or negative the fragmenter fails with `FrameTooLarge`
(§4.C: "if ≤ 0, fail FrameTooLarge"); otherwise the data is split into
ceil(len/budget) chunks, every fragment sharing the message's sessionID,
host, port and msgID, with sequential fragIDs and the common
fragCount. -/
def fragUDPMessage (m : udpMessage) (maxSize : Nat) :
    Except Err (List udpMessage) :=
  let budget := maxSize - headerOverhead m
  if budget = 0 then .error .frameTooLarge
  else
    let n := (m.data.length + budget - 1) / budget
    .ok ((List.range n).map (fun i =>
      { m with fragID := i, fragCount := n,
               data := (m.data.drop (i * budget)).take budget }))

theorem fragUDPMessage_fields (m : udpMessage) (S : Nat)
    (frags : List udpMessage) (hok : fragUDPMessage m S = .ok frags)
    (f : udpMessage) (hf : f ∈ frags) :
    f.msgID = m.msgID ∧ f.sessionID = m.sessionID ∧
    f.host = m.host ∧ f.port = m.port := by
  unfold fragUDPMessage at hok
  by_cases hb : S - headerOverhead m = 0
  · simp [hb] at hok
  · simp only [hb, if_false] at hok
    injection hok with hok
    subst hok
    simp only [List.mem_map, List.mem_range] at hf
    obtain ⟨i, _, hfe⟩ := hf
    subst hfe
    exact ⟨rfl, rfl, rfl, rfl⟩

theorem fragUDPMessage_small_budget (m : udpMessage) (S : Nat)
    (hb : S - headerOverhead m = 0) :
    fragUDPMessage m S = .error .frameTooLarge := by
  unfold fragUDPMessage
  rw [if_pos hb]

/-- Outcome of one `Session.SendMessage` attempt: success, the
distinguished `quic.ErrMessageToLarge` carrying the maximum datagram
size, or any other error. -/
inductive SendOutcome where
  | ok
  | tooLarge (maxSize : Nat)
  | fail (e : Err)
deriving DecidableEq, Repr

/-- Oracle environment for `hyUDPConn.WriteTo`: the outcome of
`utils.SplitHostPort(addr)`, the outcome of the unfragmented send, the
outcome of the i-th fragment send, and the value produced by
`rand.Intn(0xFFFF)` (an arbitrary natural, reduced mod 0xFFFF exactly as
`Intn`'s range dictates). -/
structure WriteEnv where
  parse : Except Err (String × Nat)
  send0 : SendOutcome
  fragSend : Nat → Option Err
  rand : Nat

/-- The fragment-send loop of `WriteTo` (client.go 408-415): pack and
send each fragment in order, returning on the first error. Returns the
loop's error (`none` when all sends succeed) and the list of messages
whose send was attempted. -/
def sendFrags (oracle : Nat → Option Err) : Nat → List udpMessage →
    Option Err × List udpMessage
  | _, [] => (none, [])
  | i, f :: fs =>
    match oracle i with
    | some e => (some e, [f])
    | none =>
      let r := sendFrags oracle (i + 1) fs
      (r.1, f :: r.2)

/-- Embedding of `hyUDPConn.WriteTo` (client.go 387-424). Parse the
address; build the one-fragment message (msgID 0, fragID 0, fragCount 1)
and send it; on `ErrMessageToLarge(S)` assign msgID
`uint16(rand.Intn(0xFFFF)) + 1` and run the fragmenter with budget
derived from `S` — a `FrameTooLarge` fragmenter failure (spec §4.C/§7)
is surfaced as the write's error; otherwise send the fragments
sequentially, returning the first error (nil if all succeed); return any
other send error immediately. The second component lists every message
whose send was attempted, in order. -/
def WriteTo (sid : Nat) (p : List Nat) (env : WriteEnv) :
    Option Err × List udpMessage :=
  match env.parse with
  | .error e => (some e, [])
  | .ok (host, port) =>
    let msg : udpMessage := ⟨sid, host, port, 0, 0, 1, p⟩
    match env.send0 with
    | .ok => (none, [msg])
    | .fail e => (some e, [msg])
    | .tooLarge S =>
      let msg2 : udpMessage := { msg with msgID := env.rand % 0xFFFF + 1 }
      match fragUDPMessage msg2 S with
      | .error e => (some e, [msg])
      | .ok frags =>
        let r := sendFrags env.fragSend 0 frags
        (r.1, msg :: r.2)

theorem sendFrags_all_ok (oracle : Nat → Option Err) (fs : List udpMessage) :
    ∀ i, (∀ j, j < fs.length → oracle (i + j) = none) →
      sendFrags oracle i fs = (none, fs) := by
  induction fs with
  | nil => intro i _; rfl
  | cons f t ih =>
    intro i h
    have h0 : oracle i = none := by simpa using h 0 (Nat.succ_pos _)
    have ht : sendFrags oracle (i + 1) t = (none, t) := by
      refine ih (i + 1) (fun j hj => ?_)
      have := h (j + 1) (Nat.succ_lt_succ hj)
      simpa [Nat.add_assoc, Nat.add_comm 1 j] using this
    simp [sendFrags, h0, ht]

theorem sendFrags_first_error (oracle : Nat → Option Err) (fs : List udpMessage) :
    ∀ i k e, k < fs.length → oracle (i + k) = some e →
      (∀ j, j < k → oracle (i + j) = none) →
      sendFrags oracle i fs = (some e, fs.take (k + 1)) := by
  induction fs with
  | nil => intro i k e hk; exact absurd hk (Nat.not_lt_zero _)
  | cons f t ih =>
    intro i k e hk he hbefore
    cases k with
    | zero =>
      simp only [Nat.add_zero] at he
      simp [sendFrags, he]
    | succ k' =>
      have h0 : oracle i = none := by simpa using hbefore 0 (Nat.succ_pos _)
      have he' : oracle (i + 1 + k') = some e := by
        simpa [Nat.add_assoc, Nat.add_comm 1 k'] using he
      have hb' : ∀ j, j < k' → oracle (i + 1 + j) = none := by
        intro j hj
        have := hbefore (j + 1) (Nat.succ_lt_succ hj)
        simpa [Nat.add_assoc, Nat.add_comm 1 j] using this
      have ht := ih (i + 1) k' e (Nat.lt_of_succ_lt_succ hk) he' hb'
      simp [sendFrags, h0, ht]

/-- C5 (amended): WriteTo fragmentation sequence. A parse failure
returns the parse error with nothing sent. Otherwise the first attempted
send is the single unfragmented message with msgID 0, fragID 0,
fragCount 1 and the session's ID; success returns nil after just that
send, and a non-size error is returned immediately. Exactly on
`ErrMessageToLarge(S)` the handle picks the fresh msgID
`rand.Intn(0xFFFF) + 1`, which lies in 1..0xFFFF, and runs the
fragmenter with budget derived from `S`: when the budget (S minus the
per-fragment header overhead) is zero or negative the fragmenter fails
and WriteTo returns `FrameTooLarge` with no fragment sent; otherwise the
msgID is shared by every fragment, the fragments are sent sequentially,
and the result is nil when all succeed or the first fragment-send error
with the attempts stopping there. -/
theorem writeTo_fragmentation (sid : Nat) (p : List Nat) (env : WriteEnv) :
    (∀ e, env.parse = .error e → WriteTo sid p env = (some e, [])) ∧
    (∀ host port, env.parse = .ok (host, port) →
      (env.send0 = .ok → WriteTo sid p env = (none, [⟨sid, host, port, 0, 0, 1, p⟩])) ∧
      (∀ e, env.send0 = .fail e →
        WriteTo sid p env = (some e, [⟨sid, host, port, 0, 0, 1, p⟩])) ∧
      (∀ S, env.send0 = .tooLarge S →
        1 ≤ env.rand % 0xFFFF + 1 ∧ env.rand % 0xFFFF + 1 ≤ 0xFFFF ∧
        (S - headerOverhead ⟨sid, host, port, env.rand % 0xFFFF + 1, 0, 1, p⟩ = 0 →
          fragUDPMessage ⟨sid, host, port, env.rand % 0xFFFF + 1, 0, 1, p⟩ S
              = .error .frameTooLarge ∧
          WriteTo sid p env = (some .frameTooLarge, [⟨sid, host, port, 0, 0, 1, p⟩])) ∧
        (∀ frags,
          fragUDPMessage ⟨sid, host, port, env.rand % 0xFFFF + 1, 0, 1, p⟩ S = .ok frags →
          (∀ f ∈ frags,
            f.msgID = env.rand % 0xFFFF + 1 ∧ f.sessionID = sid ∧
            f.host = host ∧ f.port = port) ∧
          ((∀ j, j < frags.length → env.fragSend j = none) →
            WriteTo sid p env = (none, ⟨sid, host, port, 0, 0, 1, p⟩ :: frags)) ∧
          (∀ k e, k < frags.length → env.fragSend k = some e →
            (∀ j, j < k → env.fragSend j = none) →
            WriteTo sid p env = (some e, ⟨sid, host, port, 0, 0, 1, p⟩ ::
              frags.take (k + 1)))))) := by
  refine ⟨fun e hp => by simp [WriteTo, hp], fun host port hp => ⟨?_, ?_, ?_⟩⟩
  · intro hs; simp [WriteTo, hp, hs]
  · intro e hs; simp [WriteTo, hp, hs]
  · intro S hs
    refine ⟨Nat.le_add_left _ _, ?_, ?_, ?_⟩
    · have : env.rand % 0xFFFF < 0xFFFF := Nat.mod_lt _ (by decide)
      omega
    · intro hb
      have herr := fragUDPMessage_small_budget
        ⟨sid, host, port, env.rand % 0xFFFF + 1, 0, 1, p⟩ S hb
      exact ⟨herr, by simp [WriteTo, hp, hs, herr]⟩
    · intro frags hok
      refine ⟨fun f hf => fragUDPMessage_fields _ S frags hok f hf, ?_, ?_⟩
      · intro hall
        have := sendFrags_all_ok env.fragSend frags 0
          (fun j hj => by simpa using hall j hj)
        simp [WriteTo, hp, hs, hok, this]
      · intro k e hk he hb
        have := sendFrags_first_error env.fragSend frags 0 k e hk
          (by simpa using he) (fun j hj => by simpa using hb j hj)
        simp [WriteTo, hp, hs, hok, this]

/-- C5 counterexample: with a "message too large" report whose maximum
size 5 is below the 14-byte frame header overhead (host "h"), every
fragment send trivially succeeds (the oracle never errors), yet WriteTo
does not return nil: the fragmenter fails and WriteTo returns
`FrameTooLarge`. So on `ErrMessageToLarge(S)` WriteTo does not always
return the first fragment-send error (nil if all succeed). -/
theorem writeTo_small_budget_not_nil :
    (WriteTo 1 [1] ⟨.ok ("h", 53), .tooLarge 5, fun _ => none, 0⟩).1
        = some .frameTooLarge ∧
    (∀ j : Nat, (fun _ : Nat => (none : Option Err)) j = none) ∧
    (WriteTo 1 [1] ⟨.ok ("h", 53), .tooLarge 5, fun _ => none, 0⟩).1 ≠ none := by
  refine ⟨by decide, fun j => rfl, by decide⟩

theorem writeTo_fragmentation_witness :
    (WriteTo 1 [1, 2, 3, 4]
      ⟨.ok ("h", 53), .tooLarge 16, fun i => if i = 1 then some (.perm "x") else none, 0⟩
     = (some (.perm "x"), ⟨1, "h", 53, 0, 0, 1, [1, 2, 3, 4]⟩ ::
        ([⟨1, "h", 53, 0 % 0xFFFF + 1, 0, 2, [1, 2]⟩,
          ⟨1, "h", 53, 0 % 0xFFFF + 1, 1, 2, [3, 4]⟩] : List udpMessage).take (1 + 1))) ∧
    (WriteTo 1 [1] ⟨.ok ("h", 53), .tooLarge 5, fun _ => none, 0⟩
     = (some .frameTooLarge, [⟨1, "h", 53, 0, 0, 1, [1]⟩])) :=
  ⟨(((writeTo_fragmentation 1 [1, 2, 3, 4]
      ⟨.ok ("h", 53), .tooLarge 16,
       fun i => if i = 1 then some (.perm "x") else none, 0⟩).2
      "h" 53 rfl).2.2 16 rfl).2.2.2
      [⟨1, "h", 53, 0 % 0xFFFF + 1, 0, 2, [1, 2]⟩,
       ⟨1, "h", 53, 0 % 0xFFFF + 1, 1, 2, [3, 4]⟩]
      (by decide) |>.2.2 1 (.perm "x") (by decide) rfl (by decide),
   ((((writeTo_fragmentation 1 [1]
      ⟨.ok ("h", 53), .tooLarge 5, fun _ => none, 0⟩).2
      "h" 53 rfl).2.2 5 rfl).2.2.1 (by decide)).2⟩

/-! ### Datagram pump (client.go lines 158-185) -/

/-- Modelled from the spec: a partial-assembly record of the defragger
(§4.B, in this package outside src/): the in-flight msgID, its fragment
count, and the fragment buffers indexed by fragment ID. -/
structure FragRec where
  msgID : Nat
  fragCount : Nat
  slots : List (Option (List Nat))
deriving DecidableEq, Repr

/-- Defragger state: one record per session ID. -/
abbrev DefragMap := List (Nat × FragRec)

/-- Modelled from the spec: `defragger.Feed` (§4.B, in this package
outside src/). A message with fragCount ≤ 1 is emitted untouched. Else
the session's record is replaced by a fresh one when absent or when its
msgID differs from the incoming one; a fragment whose fragID indexes an
empty slot fills it (out-of-range or duplicate fragments are ignored);
when every slot is full the payloads are concatenated in fragID order
and emitted, clearing the record. -/
def feed (st : DefragMap) (m : udpMessage) : DefragMap × Option udpMessage :=
  if m.fragCount ≤ 1 then (st, some m)
  else
    let r0 : FragRec :=
      match alookup st m.sessionID with
      | some r =>
        if r.msgID = m.msgID then r
        else ⟨m.msgID, m.fragCount, List.replicate m.fragCount none⟩
      | none => ⟨m.msgID, m.fragCount, List.replicate m.fragCount none⟩
    let r1 : FragRec :=
      match r0.slots[m.fragID]? with
      | some none => { r0 with slots := r0.slots.set m.fragID (some m.data) }
      | _ => r0
    if r1.slots.all Option.isSome then
      (aerase st m.sessionID,
       some ⟨m.sessionID, m.host, m.port, m.msgID, 0, 1,
             (r1.slots.map (fun o => o.getD [])).flatten⟩)
    else (ainsert st m.sessionID r1, none)

/-- The capacity of a UDP session's receive channel
(`make(chan *udpMessage, 1024)`, client.go line 278). -/
def chanCap : Nat := 1024

/-- State seen by the datagram pump: the defragger state and, for each
registered session, its receive queue (the buffered channel's
contents). -/
structure PumpState where
  dfrag : DefragMap
  sessions : List (Nat × List udpMessage)
deriving DecidableEq, Repr

/-- One iteration's input, as the pump observes it: `recvErr` is a
failing `ReceiveMessage`, `malformed` a datagram `struc.Unpack` rejects,
`msg` a decoded UDP message. -/
inductive PumpIn where
  | recvErr
  | malformed
  | msg (m : udpMessage)
deriving DecidableEq, Repr

/-- Observable effects of the pump: delivery of an assembled message
into a session queue, a silent drop because the queue was full, or a
reconnect trigger — which the pump never emits, but which is in the
alphabet so that its absence is a statement about `handleMessage` and
not about the event type. -/
inductive PumpEvent where
  | delivered (sid : Nat)
  | dropped (sid : Nat)
  | reconnectTriggered
deriving DecidableEq, Repr

/-- The body of one pump iteration for a decoded message (client.go
164-183): feed the defragger; if nothing was assembled, continue; else
look up the session queue under the read lock; absent session, continue;
full queue (`select`'s `default` branch), drop silently; otherwise
append to the queue. -/
def pumpStep (st : PumpState) (m : udpMessage) : PumpState × List PumpEvent :=
  let fr := feed st.dfrag m
  match fr.2 with
  | none => (⟨fr.1, st.sessions⟩, [])
  | some dm =>
    match alookup st.sessions dm.sessionID with
    | none => (⟨fr.1, st.sessions⟩, [])
    | some q =>
      if q.length < chanCap then
        (⟨fr.1, ainsert st.sessions dm.sessionID (q ++ [dm])⟩,
         [.delivered dm.sessionID])
      else
        (⟨fr.1, st.sessions⟩, [.dropped dm.sessionID])

/-- Embedding of the `Client.handleMessage` loop (client.go 158-185)
over a finite schedule of receive outcomes: the loop consumes inputs in
order, breaking exactly when `ReceiveMessage` fails; `struc.Unpack`
failures are skipped with `continue`. Returns the final state, the event
trace, and the number of inputs consumed before the loop stopped (all of
them if no receive error occurs in the schedule). -/
def handleMessage (st : PumpState) : List PumpIn → PumpState × List PumpEvent × Nat
  | [] => (st, [], 0)
  | .recvErr :: _ => (st, [], 1)
  | .malformed :: rest =>
    let r := handleMessage st rest
    (r.1, r.2.1, r.2.2 + 1)
  | .msg m :: rest =>
    let s1 := pumpStep st m
    let r := handleMessage s1.1 rest
    (r.1, s1.2 ++ r.2.1, r.2.2 + 1)

theorem pumpStep_no_reconnect (st : PumpState) (m : udpMessage) :
    PumpEvent.reconnectTriggered ∉ (pumpStep st m).2 := by
  unfold pumpStep
  cases hf : (feed st.dfrag m).2 with
  | none => simp [hf]
  | some dm =>
    cases hl : alookup st.sessions dm.sessionID with
    | none => simp [hf, hl]
    | some q => by_cases hq : q.length < chanCap <;> simp [hf, hl, hq]

/-- C8: datagram-pump policy. (1) When an assembled message's session
queue is full, the step drops it: the queues are left unchanged, a drop
event is emitted, and the pump does not block — processing continues, as
(2) shows: the pump consumes its whole schedule when no receive error
occurs, and stops exactly at the first receive error otherwise; and (3)
the pump never emits a reconnect trigger. -/
theorem pump_drop_and_termination :
    (∀ (st : PumpState) (m dm : udpMessage) (q : List udpMessage),
      (feed st.dfrag m).2 = some dm →
      alookup st.sessions dm.sessionID = some q →
      ¬q.length < chanCap →
      pumpStep st m = (⟨(feed st.dfrag m).1, st.sessions⟩, [.dropped dm.sessionID])) ∧
    (∀ (ins : List PumpIn) (st : PumpState), PumpIn.recvErr ∉ ins →
      (handleMessage st ins).2.2 = ins.length) ∧
    (∀ (pre post : List PumpIn) (st : PumpState), PumpIn.recvErr ∉ pre →
      (handleMessage st (pre ++ PumpIn.recvErr :: post)).2.2 = pre.length + 1) ∧
    (∀ (ins : List PumpIn) (st : PumpState),
      PumpEvent.reconnectTriggered ∉ (handleMessage st ins).2.1) := by
  refine ⟨fun st m dm q hf hl hq => ?_, fun ins => ?_, fun pre post => ?_, fun ins => ?_⟩
  · unfold pumpStep
    simp only [hf, hl, if_neg hq]
  · induction ins with
    | nil => intro st _; rfl
    | cons i rest ih =>
      intro st hni
      have hi : i ≠ PumpIn.recvErr := fun hc => hni (hc ▸ List.mem_cons_self i rest)
      have hrest : PumpIn.recvErr ∉ rest := fun hc => hni (List.mem_cons_of_mem i hc)
      cases i with
      | recvErr => exact absurd rfl hi
      | malformed => simp [handleMessage, ih st hrest]
      | msg m => simp [handleMessage, ih (pumpStep st m).1 hrest]
  · induction pre with
    | nil => intro st _; rfl
    | cons i rest ih =>
      intro st hni
      have hi : i ≠ PumpIn.recvErr := fun hc => hni (hc ▸ List.mem_cons_self i rest)
      have hrest : PumpIn.recvErr ∉ rest := fun hc => hni (List.mem_cons_of_mem i hc)
      cases i with
      | recvErr => exact absurd rfl hi
      | malformed => simp [handleMessage, ih st hrest]
      | msg m => simp [handleMessage, ih (pumpStep st m).1 hrest]
  · induction ins with
    | nil => intro st; simp [handleMessage]
    | cons i rest ih =>
      intro st
      cases i with
      | recvErr => simp [handleMessage]
      | malformed => simp [handleMessage]; exact ih st
      | msg m =>
        simp [handleMessage]
        exact ⟨pumpStep_no_reconnect st m, ih (pumpStep st m).1⟩

/-- A pump state whose only session (ID 7) has a receive queue filled to
capacity. -/
def fullQueueState : PumpState :=
  ⟨[], [(7, List.replicate chanCap ⟨7, "h", 1, 0, 0, 1, [1]⟩)]⟩

theorem pump_drop_and_termination_witness :
    pumpStep fullQueueState ⟨7, "h", 1, 0, 0, 1, [2]⟩
      = (⟨(feed fullQueueState.dfrag ⟨7, "h", 1, 0, 0, 1, [2]⟩).1,
          fullQueueState.sessions⟩, [.dropped 7]) ∧
    (handleMessage fullQueueState
        [.malformed, .msg ⟨7, "h", 1, 0, 0, 1, [2]⟩, .recvErr, .malformed]).2.2 = 3 :=
  ⟨pump_drop_and_termination.1 fullQueueState ⟨7, "h", 1, 0, 0, 1, [2]⟩
      ⟨7, "h", 1, 0, 0, 1, [2]⟩ (List.replicate chanCap ⟨7, "h", 1, 0, 0, 1, [1]⟩)
      rfl rfl (by simp),
   pump_drop_and_termination.2.2.1 [.malformed, .msg ⟨7, "h", 1, 0, 0, 1, [2]⟩]
      [.malformed] fullQueueState (by decide)⟩

end HysteriaCore
